import Mathlib

/-
Shallow Lean embedding of the MilkButton repository (player/player.py,
sender/sender.py, sender/keylistener.py), together with theorems settling
the specification claims about the trigger / announce / playback pipeline.

Modelling conventions:
- Python strings are modelled as Lean strings, inspected through their
  character lists (`String.data`);
- Python floats used as timestamps (`time.time()`, `time.monotonic()`)
  are modelled as rationals;
- Python ints are Lean integers;
- fallible Python code (uncaught exceptions) is modelled with `Except`.
-/

namespace MilkButton

/-- Check whether `pat` occurs at the head of `s` (character lists). -/
def matchesAt (pat s : List Char) : Bool :=
  match pat, s with
  | [], _ => true
  | _ :: _, [] => false
  | a :: as, b :: bs => a = b && matchesAt as bs

/-- Substring containment of `pat` in `s` (character lists), scanning
every start position; models the semantics of Python `pat in s`. -/
def hasSubstring (s pat : List Char) : Bool :=
  match s with
  | [] => pat.isEmpty
  | _ :: rest => matchesAt pat s || hasSubstring rest pat

/-- Python `pat in s` for strings. -/
def pyInStr (pat s : String) : Bool := hasSubstring s.data pat.data

namespace Player

/-- Character class of the regex `[a-zA-Z0-9._ -]` used by
`_safe_filename` in player.py (ASCII letters, digits, dot, underscore,
space, hyphen). -/
def allowedChar (c : Char) : Bool :=
  (('a' ≤ c && c ≤ 'z') || ('A' ≤ c && c ≤ 'Z') || ('0' ≤ c && c ≤ '9')
    || c = '.' || c = '_' || c = ' ' || c = '-')

/-- Embedding of `bool(re.match(r"^[a-zA-Z0-9._ -]+$", s))` from
player.py. In Python `re`, the `$` anchor matches at the end of the
string or just before a single newline at the end of the string, so the
regex accepts a non-empty run of allowed characters, optionally followed
by exactly one final newline. -/
def classFullMatch (s : String) : Bool :=
  (!s.data.isEmpty && s.data.all allowedChar) ||
  (match s.data.getLast? with
   | some c => c = '\n' && !s.data.dropLast.isEmpty && s.data.dropLast.all allowedChar
   | none => false)

/-- Embedding of `_safe_filename` from player.py: reject empty names,
names containing "..", "/" or "\\", then require the regex to match. -/
def safe_filename (name : String) : Bool :=
  if name.data.isEmpty || pyInStr ".." name || pyInStr "/" name || pyInStr "\\" name then
    false
  else
    classFullMatch name

/-- The validator's acceptance condition exactly as the specification
words it: non-empty, no "..", no path separator, and every character
drawn from the allow-list. -/
def specSafeName (s : String) : Prop :=
  s.data ≠ [] ∧ pyInStr ".." s = false ∧ pyInStr "/" s = false ∧
    pyInStr "\\" s = false ∧ s.data.all allowedChar = true

/-- JSON values as produced by `json.load`; numbers are modelled as
integers (the config fields of interest are integral). -/
inductive JVal where
  | jnull
  | jbool (b : Bool)
  | jnum (n : Int)
  | jstr (s : String)
  | jarr (xs : List JVal)
  | jobj (kvs : List (String × JVal))

/-- Python exceptions that `load_config` can let escape. -/
inductive PyErr where
  | typeError
  | valueError
  | keyError
deriving DecidableEq

/-- State of the persisted config.json as seen by `load_config`:
absent, unreadable (OSError on open/read), syntactically invalid JSON
(json.JSONDecodeError), or successfully parsed content. -/
inductive Storage where
  | missing
  | unreadable
  | invalidJson
  | content (v : JVal)

/-- Lookup of a key in a parsed JSON object (Python dict access). -/
def lookupKey (kvs : List (String × JVal)) (k : String) : Option JVal :=
  match kvs with
  | [] => none
  | (k2, v) :: rest => if k2 = k then some v else lookupKey rest k

/-- Python `k in data` on a JSON value: key membership for dicts,
element equality for lists, substring test for strings, TypeError for
null / bool / number. -/
def pyMem (k : String) (v : JVal) : Except PyErr Bool :=
  match v with
  | .jobj kvs => .ok (lookupKey kvs k).isSome
  | .jarr xs => .ok (xs.any fun x => match x with | .jstr s => s = k | _ => false)
  | .jstr s => .ok (pyInStr k s)
  | _ => .error .typeError

/-- Python `data[k]`: dict item access; TypeError on any non-dict
(string and list subscripts require integers). -/
def getItem (v : JVal) (k : String) : Except PyErr JVal :=
  match v with
  | .jobj kvs =>
      match lookupKey kvs k with
      | some x => .ok x
      | none => .error .keyError
  | _ => .error .typeError

/-- Strip leading and trailing whitespace from a character list. -/
def stripChars (cs : List Char) : List Char :=
  ((cs.dropWhile Char.isWhitespace).reverse.dropWhile Char.isWhitespace).reverse

/-- Accumulate a non-empty decimal digit run; none on any non-digit. -/
def digitsVal (cs : List Char) (acc : Nat) : Option Nat :=
  match cs with
  | [] => some acc
  | c :: rest => if c.isDigit then digitsVal rest (acc * 10 + (c.toNat - 48)) else none

/-- Python `int(str)`: surrounding whitespace allowed, optional sign,
then decimal digits; none (ValueError) otherwise. (Digit-group
underscores are not modelled.) -/
def parsePyInt (cs : List Char) : Option Int :=
  match stripChars cs with
  | [] => none
  | '-' :: rest =>
      match rest with
      | [] => none
      | _ :: _ => (digitsVal rest 0).map (fun n => -(n : Int))
  | '+' :: rest =>
      match rest with
      | [] => none
      | _ :: _ => (digitsVal rest 0).map (fun n => (n : Int))
  | c :: rest => (digitsVal (c :: rest) 0).map (fun n => (n : Int))

/-- Python `int(x)` on a JSON value: identity on numbers, 0/1 on bools,
decimal parse (ValueError on failure) on strings, TypeError otherwise. -/
def pyToInt (v : JVal) : Except PyErr Int :=
  match v with
  | .jnum n => .ok n
  | .jbool b => .ok (if b then 1 else 0)
  | .jstr s =>
      match parsePyInt s.data with
      | some n => .ok n
      | none => .error .valueError
  | _ => .error .typeError

def DEFAULT_REPEATS : Int := 2
def DEFAULT_DELAY : Int := 10
def DEFAULT_VOLUME : Int := 32768

/-- Player playback config record (repeats, delay, volume). -/
structure Config where
  repeats : Int
  delay : Int
  volume : Int
deriving DecidableEq

/-- One field of `load_config`: `if k in data: config[k] = int(data[k])`. -/
def loadField (data : JVal) (k : String) (dflt : Int) : Except PyErr Int := do
  if (← pyMem k data) then
    pyToInt (← getItem data k)
  else
    pure dflt

/-- Embedding of the player's `load_config`: defaults when config.json
is missing, unreadable or invalid JSON (the `except` clause catches only
`json.JSONDecodeError` and `OSError`); field-wise overrides via
`int(data[k])` otherwise, whose TypeError / ValueError escape uncaught. -/
def load_config (st : Storage) : Except PyErr Config :=
  match st with
  | .content data => do
      let r ← loadField data "repeats" DEFAULT_REPEATS
      let d ← loadField data "delay" DEFAULT_DELAY
      let v ← loadField data "volume" DEFAULT_VOLUME
      return ⟨r, d, v⟩
  | _ => .ok ⟨DEFAULT_REPEATS, DEFAULT_DELAY, DEFAULT_VOLUME⟩

/-- Value of a config field from a JSON object: the `int(...)`-coerced
value when the key is present and coercible, the default otherwise. -/
def coerceVal (kvs : List (String × JVal)) (k : String) (dflt : Int) : Int :=
  match lookupKey kvs k with
  | none => dflt
  | some v =>
      match pyToInt v with
      | .ok n => n
      | .error _ => dflt

/-- A key of a JSON object that is either absent or bound to a value on
which Python `int(...)` succeeds (an integer, a boolean, or a numeric
string). -/
def coercibleOrAbsent (kvs : List (String × JVal)) (k : String) : Prop :=
  lookupKey kvs k = none ∨
    ∃ v n, lookupKey kvs k = some v ∧ pyToInt v = Except.ok n

/-- The module-level `LAST_PLAYED` throttle cell of player.py (unix
timestamp of the last playback start, 0.0 at process start). -/
structure PlayerState where
  lastPlayed : ℚ
deriving DecidableEq

/-- One detached decoder invocation (`subprocess.Popen(params)`): the
full argument vector handed to mpg123. -/
structure Launch where
  argv : List String
deriving DecidableEq

/-- Python `file_paths * repeats` (list repetition; empty for
non-positive repeat counts). -/
def pyListMul (xs : List String) (n : Int) : List String :=
  (List.replicate n.toNat xs).flatten

/-- The specification's play-list: the requested files repeated `r`
times in sequence (concatenation, not interleaving). -/
def repeatConcat (fs : List String) : Nat → List String
  | 0 => []
  | n + 1 => fs ++ repeatConcat fs n

/-- Result of `play_audio`: its boolean return value, the updated
`LAST_PLAYED` cell, and the decoder launches it performed. -/
structure PlayResult where
  ok : Bool
  state : PlayerState
  launches : List Launch
deriving DecidableEq

/-- Embedding of `play_audio` from player.py: if `now - LAST_PLAYED <
delay` return True without launching; otherwise launch mpg123 once with
`["mpg123", "-f", str(volume), "-q"] + file_paths * repeats` detached
and set `LAST_PLAYED := now`. -/
def play_audio (file_paths : List String) (repeats delay volume : Int)
    (now : ℚ) (st : PlayerState) : PlayResult :=
  if now - st.lastPlayed < (delay : ℚ) then
    ⟨true, st, []⟩
  else
    ⟨true, ⟨now⟩, [⟨["mpg123", "-f", toString volume, "-q"] ++ pyListMul file_paths repeats⟩]⟩

/-- HTTP response of the announce handler: 200 with a body, or an
`abort(code, msg)`. -/
inductive HttpResp where
  | ok200 (body : String)
  | err (code : Nat) (msg : String)
deriving DecidableEq

/-- The audio directory path prefix used by `os.path.join(AUDIO_DIR, f)`;
kept abstract as a name, playback resolves files below it. -/
def AUDIO_DIR : String := "audio"

/-- POSIX `os.path.join(dir, name)`: an absolute `name` (leading '/')
discards `dir`; otherwise the two are joined with a separator. -/
def joinPath (dir name : String) : String :=
  match name.data with
  | '/' :: _ => name
  | _ => dir ++ "/" ++ name

/-- Split a character list on '/' into segments. -/
def splitSegs (cs : List Char) : List (List Char) :=
  match cs with
  | [] => [[]]
  | c :: rest =>
      if c = '/' then
        [] :: splitSegs rest
      else
        match splitSegs rest with
        | s :: ss => (c :: s) :: ss
        | [] => [[c]]

/-- Rejoin path segments with '/'. -/
def joinSegs : List (List Char) → List Char
  | [] => []
  | [s] => s
  | s :: rest => s ++ '/' :: joinSegs rest

/-- Lexical POSIX path normalization (`os.path.normpath` for the paths
at hand): drop empty and "." segments, let ".." cancel a preceding
segment (kept at the front of a relative path, dropped at the root of
an absolute one). This is how the operating system resolves the ".."
components of a symlink-free path handed to `os.path.exists`. -/
def normPath (s : String) : String :=
  let isAbs : Bool :=
    match s.data with
    | '/' :: _ => true
    | _ => false
  let stack := (splitSegs s.data).foldl (fun acc seg =>
    if seg.isEmpty then acc
    else if seg = ['.'] then acc
    else if seg = ['.', '.'] then
      match acc with
      | [] => if isAbs then [] else [seg]
      | top :: rest => if top = ['.', '.'] then seg :: acc else rest
    else seg :: acc) []
  let body := joinSegs stack.reverse
  if isAbs then String.mk ('/' :: body)
  else if body.isEmpty then "."
  else String.mk body

/-- Whether a normalized path is a direct entry of the audio directory:
it starts with "audio/" and the remainder is one non-empty component. -/
def audioDirEntry (p : String) : Bool :=
  matchesAt (AUDIO_DIR ++ "/").data p.data &&
    (let rest := p.data.drop (AUDIO_DIR ++ "/").data.length
     !rest.isEmpty && !rest.contains '/')

/-- The specification's notion of a requested filename resolving to an
existing file in the audio directory: with `fs` the normalized paths of
the files that exist, the joined path normalizes to a direct entry of
AUDIO_DIR that is present in `fs`. -/
def resolvesInAudioDir (fs : List String) (name : String) : Bool :=
  fs.contains (normPath (joinPath AUDIO_DIR name)) &&
    audioDirEntry (normPath (joinPath AUDIO_DIR name))

/-- Result of the announce handler: HTTP response, updated throttle
cell, and the decoder launches performed. -/
structure AnnounceResult where
  resp : HttpResp
  state : PlayerState
  launches : List Launch
deriving DecidableEq

/-- The validation loop of `announce`: walk the requested filenames in
order, abort with the first one whose joined path does not exist
(`os.path.exists`), otherwise collect the joined paths. `ex` is the
file-existence predicate of the audio directory. -/
def checkFiles (ex : String → Bool) : List String → Except String (List String)
  | [] => .ok []
  | f :: rest =>
      if ex (joinPath AUDIO_DIR f) then do
        let ps ← checkFiles ex rest
        return joinPath AUDIO_DIR f :: ps
      else
        .error f

/-- Embedding of the `/announce` handler from player.py, after a
successful `load_config` (`cfg`): 400 when no `file` parameter is given,
400 `Unknown file` when any requested name does not exist in the audio
directory, otherwise `play_audio` with the configured repeats / delay /
volume; its True result yields 200 `"OK\n"`. -/
def announce (ex : String → Bool) (cfg : Config) (files : List String)
    (now : ℚ) (st : PlayerState) : AnnounceResult :=
  if files.isEmpty then
    ⟨.err 400 "No file provided to play", st, []⟩
  else
    match checkFiles ex files with
    | .error f => ⟨.err 400 ("Unknown file: " ++ f), st, []⟩
    | .ok paths =>
        let r := play_audio paths cfg.repeats cfg.delay cfg.volume now st
        if r.ok then
          ⟨.ok200 "OK\n", r.state, r.launches⟩
        else
          ⟨.err 500 "Failed to play audio", r.state, r.launches⟩

end Player

namespace KeyListener

/-- Debounce window of keylistener.py (seconds). -/
def DEBOUNCE : ℚ := 1

/-- The debounce logic of the key-event loop in `main`: `last` is the
module state, and a key-down event at monotonic time `t` is dropped when
`t - last < DEBOUNCE`, else forwarded (send_trigger) with `last := t`.
Returns the forwarded-or-dropped flag per event, in order. -/
def runDebounce (last : ℚ) : List ℚ → List Bool
  | [] => []
  | t :: ts =>
      if t - last < DEBOUNCE then
        false :: runDebounce last ts
      else
        true :: runDebounce t ts

/-- The whole loop as run by `main`, whose state starts at `last = 0.0`. -/
def mainDebounce (ts : List ℚ) : List Bool := runDebounce 0 ts

/-- The debounce rule exactly as the specification words it: forward iff
`t - lastTriggerTime ≥ window`, updating `lastTriggerTime := t` on
forward, dropping silently otherwise. -/
def specDebounce (last : ℚ) : List ℚ → List Bool
  | [] => []
  | t :: ts =>
      if t - last ≥ DEBOUNCE then
        true :: specDebounce t ts
      else
        false :: specDebounce last ts

end KeyListener

namespace Sender

/-- Sender config record (config.json): `server` (player base URL, None
or absent modelled as `none`), `available_audio_files` and
`audio_files_to_send` (absent keys modelled as the empty list, matching
every use site, which treats absent and empty alike). -/
structure SConfig where
  server : Option String
  available_audio_files : List String
  audio_files_to_send : List String
deriving DecidableEq

/-- Python truthiness of `config.get("server")`: false for absent / None
and for the empty string. -/
def truthyS : Option String → Bool
  | none => false
  | some s => !s.data.isEmpty

/-- Python `s.strip()` (surrounding whitespace removed). -/
def stripWS (s : String) : String := String.mk (Player.stripChars s.data)

/-- Python `s.rstrip("/")` (all trailing slashes removed). -/
def rstripSlashes (s : String) : String :=
  String.mk ((s.data.reverse.dropWhile (fun c => c = '/')).reverse)

/-- Uppercase hexadecimal digit for a value below 16. -/
def toHexChar (n : Nat) : Char :=
  if n < 10 then Char.ofNat (48 + n) else Char.ofNat (55 + n)

/-- `urllib.parse.quote_plus` on one character: keep alphanumerics and
`_ . - ~`, encode space as `+`, percent-encode the rest byte-wise (the
model covers the single-byte characters the repository handles). -/
def quotePlusChar (c : Char) : List Char :=
  if ('a' ≤ c && c ≤ 'z') || ('A' ≤ c && c ≤ 'Z') || ('0' ≤ c && c ≤ '9')
      || c = '_' || c = '.' || c = '-' || c = '~' then
    [c]
  else if c = ' ' then
    ['+']
  else
    '%' :: toHexChar (c.toNat / 16 % 16) :: [toHexChar (c.toNat % 16)]

/-- `urllib.parse.quote_plus` on a string. -/
def quotePlus (s : String) : String := String.mk ((s.data.map quotePlusChar).flatten)

/-- `urllib.parse.urlencode([("file", f) for f in files])`. -/
def urlencodeFiles (files : List String) : String :=
  String.intercalate "&" (files.map (fun f => "file=" ++ quotePlus f))

/-- The announce URL built by `/send`:
`server + "/announce?" + urlencode(...)`. -/
def announceUrl (server : String) (files : List String) : String :=
  server ++ "/announce?" ++ urlencodeFiles files

/-- Outcome of the outbound GET to the player: an HTTP status (also for
HTTPError) or a network failure (URLError / OSError). -/
inductive NetResult where
  | status (code : Nat)
  | failure (msg : String)

/-- JSON response of `/send`: 200 {ok: true}, 400 {ok: false, error}, or
502 {ok: false, error}. -/
inductive SendResp where
  | okJson
  | clientErr (msg : String)
  | gatewayErr (msg : String)
deriving DecidableEq

/-- Result of the `/send` handler: its response and the announce URLs it
actually called on the network. -/
structure SendResult where
  resp : SendResp
  calls : List String
deriving DecidableEq

/-- Embedding of the `/send` handler from sender.py: normalize the
configured server, drop blank entries from `audio_files_to_send`, answer
400 without any network call when either is empty, otherwise GET the
announce URL and map 200 to ok, any other status and any network failure
to a 502 gateway error. -/
def send (net : String → NetResult) (cfg : SConfig) : SendResult :=
  let server := rstripSlashes (stripWS (cfg.server.getD ""))
  let files := cfg.audio_files_to_send.filter (fun f => !f.data.isEmpty)
  if server.data.isEmpty then
    ⟨.clientErr "No player configured", []⟩
  else if files.isEmpty then
    ⟨.clientErr "No audio files to send", []⟩
  else
    let url := announceUrl server files
    match net url with
    | .status 200 => ⟨.okJson, [url]⟩
    | .status c => ⟨.gatewayErr ("Server returned " ++ toString c), [url]⟩
    | .failure msg => ⟨.gatewayErr msg, [url]⟩

/-- Embedding of `Listener.add_service` from sender.py: when
`get_service_info` yields a resolution (ip, port), unconditionally
overwrite `self.server` with "http://ip:port"; keep it when resolution
fails. -/
def addService (server : Option String) (info : Option (String × Nat)) : Option String :=
  match info with
  | some (ip, port) => some ("http://" ++ ip ++ ":" ++ toString port)
  | none => server

/-- Embedding of `find_server`: starting from no candidate, process the
advertisements resolved during the browse window in order through
`add_service`, then return the recorded candidate. -/
def find_server (ads : List (Option (String × Nat))) : Option String :=
  ads.foldl addService none

/-- Startup reconciliation outcome: final in-memory config and every
snapshot passed to `save_config`, in order. -/
structure StartupResult where
  config : SConfig
  saves : List SConfig
deriving DecidableEq

/-- The fetch-success tail of `run_startup`: persist the fetched list as
`available_audio_files`, then default an empty `audio_files_to_send` to
the first fetched file (persisting again). Returns the new config and
the snapshots saved, in order. -/
def startupAfterFetch (cfg : SConfig) (files : List String) : SConfig × List SConfig :=
  let c1 := { cfg with available_audio_files := files }
  match files with
  | [] => (c1, [c1])
  | f :: _ =>
      if cfg.audio_files_to_send.isEmpty then
        let c2 := { c1 with audio_files_to_send := [f] }
        (c2, [c1, c2])
      else
        (c1, [c1])

/-- Embedding of `run_startup` from sender.py. `discover` is the result
a Zeroconf browse would return (`find_server` runs at most once per
startup, guarded by `zeroconf_done`); `fetch` is `fetch_remote_files`.
Phase 1 discovers and persists a server when none is configured; phase 2
fetches the inventory, retrying discovery and fetch once when the fetch
failed and discovery had not yet been attempted. -/
def run_startup (discover : Option String) (fetch : String → Option (List String))
    (cfg0 : SConfig) : StartupResult :=
  let phase1 : SConfig × List SConfig × Bool :=
    if truthyS cfg0.server then
      (cfg0, [], false)
    else
      match discover with
      | some s => ({ cfg0 with server := some s }, [{ cfg0 with server := some s }], true)
      | none => (cfg0, [], true)
  match phase1 with
  | (cfg1, saves1, zdone) =>
      if truthyS cfg1.server then
        match fetch (cfg1.server.getD "") with
        | some files =>
            let p := startupAfterFetch cfg1 files
            ⟨p.1, saves1 ++ p.2⟩
        | none =>
            if zdone then
              ⟨cfg1, saves1⟩
            else
              match discover with
              | some s =>
                  let c := { cfg1 with server := some s }
                  match fetch s with
                  | some files =>
                      let p := startupAfterFetch c files
                      ⟨p.1, saves1 ++ [c] ++ p.2⟩
                  | none => ⟨c, saves1 ++ [c]⟩
              | none => ⟨cfg1, saves1⟩
      else
        ⟨cfg1, saves1⟩

/-- A PATCH /api/config body as the handler branches on it: the "server"
key present (value None modelled as `none`; handled first, with early
return), else the "audio_files_to_send" key present (a non-list value is
treated as `[]`, modelled by `none`), else neither. -/
inductive PatchData where
  | setServer (v : Option String)
  | setFiles (v : Option (List String))
  | noKeys

/-- Response of PATCH /api/config: the (possibly updated) config as JSON,
or a 400 error. -/
inductive PatchResp where
  | okConfig (c : SConfig)
  | err400 (msg : String)
deriving DecidableEq

/-- Result of PATCH /api/config: response plus every snapshot passed to
`save_config`. -/
structure PatchOut where
  resp : PatchResp
  saves : List SConfig
deriving DecidableEq

/-- Embedding of the sender's `api_patch_config`: a present "server" key
empties the config when blank, otherwise validates the candidate URL by
fetching /files and, on success, replaces the inventory, filters
`audio_files_to_send` to it, defaulting to the first file when the
filter empties it; a present "audio_files_to_send" key is filtered
against the stored inventory; no recognized key saves nothing. -/
def api_patch_config (fetch : String → Option (List String)) (cfg : SConfig)
    (data : PatchData) : PatchOut :=
  match data with
  | .setServer v =>
      let new_server := rstripSlashes (stripWS (v.getD ""))
      if new_server.data.isEmpty then
        let c := { cfg with server := none, available_audio_files := [],
                            audio_files_to_send := [] }
        ⟨.okConfig c, [c]⟩
      else
        match fetch new_server with
        | none => ⟨.err400 "Could not reach player or invalid response from /files", []⟩
        | some [] => ⟨.err400 "No audio files found on player", []⟩
        | some (f0 :: rest) =>
            let files := f0 :: rest
            let kept := cfg.audio_files_to_send.filter (fun f => files.contains f)
            let toSend := if kept.isEmpty then [f0] else kept
            let c := { cfg with server := some new_server,
                                available_audio_files := files,
                                audio_files_to_send := toSend }
            ⟨.okConfig c, [c]⟩
  | .setFiles v =>
      let requested := v.getD []
      let kept := requested.filter (fun f => cfg.available_audio_files.contains f)
      let c := { cfg with audio_files_to_send := kept }
      ⟨.okConfig c, [c]⟩
  | .noKeys => ⟨.okConfig cfg, []⟩

/-- The SenderConfig invariant of the specification:
`audio_files_to_send ⊆ available_audio_files`. -/
def invariantB (c : SConfig) : Bool :=
  c.audio_files_to_send.all (fun f => c.available_audio_files.contains f)

end Sender

end MilkButton

namespace MilkButton

namespace Player

theorem exists_concat_newline_iff (cs : List Char) :
    (∃ w, cs = w ++ ['\n'] ∧ w ≠ [] ∧ w.all allowedChar = true) ↔
      (cs.getLast? = some '\n' ∧ cs.dropLast ≠ [] ∧ cs.dropLast.all allowedChar = true) := by
  constructor
  · rintro ⟨w, rfl, hne, hall⟩
    refine ⟨by rw [List.getLast?_concat], ?_, ?_⟩
    · simpa [List.dropLast_concat] using hne
    · simpa [List.dropLast_concat] using hall
  · rintro ⟨h1, h2, h3⟩
    refine ⟨cs.dropLast, ?_, h2, h3⟩
    rcases cs.eq_nil_or_concat with rfl | ⟨ys, a, hcat⟩
    · simp at h1
    · rw [List.concat_eq_append] at hcat
      subst hcat
      rw [List.getLast?_concat] at h1
      obtain rfl : a = '\n' := by simpa using h1
      rw [List.dropLast_concat]

theorem classFullMatch_iff (s : String) :
    classFullMatch s = true ↔
      ((s.data ≠ [] ∧ s.data.all allowedChar = true) ∨
       (∃ w, s.data = w ++ ['\n'] ∧ w ≠ [] ∧ w.all allowedChar = true)) := by
  rw [exists_concat_newline_iff]
  simp only [classFullMatch]
  cases hg : s.data.getLast? with
  | none =>
      have hnil : s.data = [] := List.getLast?_eq_none_iff.mp hg
      simp [hnil]
  | some c =>
      by_cases hc : c = '\n'
      · subst hc
        simp [hg, List.isEmpty_eq_false, List.isEmpty_eq_true]
      · simp [hg, hc, List.isEmpty_eq_false, List.isEmpty_eq_true]

/-- C9 counterexample: the validator accepts the string "a\n" even though
it contains a character (the newline) outside the allow-list, because the
regex anchor `$` also matches just before a single trailing newline. This
refutes the claimed "accepts iff every character is in the allow-list". -/
theorem safe_filename_newline_counterexample :
    safe_filename "a\n" = true ∧ ¬ specSafeName "a\n" := by
  constructor
  · rfl
  · intro h
    obtain ⟨-, -, -, -, hall⟩ := h
    exact absurd hall (by decide)

/-- C9 (amended): `_safe_filename` accepts `s` iff `s` contains no "..",
no "/" and no "\\", and `s` is either a non-empty string of allow-list
characters (letters, digits, space, '.', '_', '-') or such a string
followed by exactly one trailing newline. In particular "../etc/passwd",
"a/b.mp3", "a\\b.mp3" and "" are rejected and "horn 1.mp3" is accepted. -/
theorem safe_filename_characterization :
    (∀ s : String, safe_filename s = true ↔
      (pyInStr ".." s = false ∧ pyInStr "/" s = false ∧ pyInStr "\\" s = false ∧
       ((s.data ≠ [] ∧ s.data.all allowedChar = true) ∨
        (∃ w, s.data = w ++ ['\n'] ∧ w ≠ [] ∧ w.all allowedChar = true)))) ∧
    safe_filename "../etc/passwd" = false ∧
    safe_filename "a/b.mp3" = false ∧
    safe_filename "a\\b.mp3" = false ∧
    safe_filename "" = false ∧
    safe_filename "horn 1.mp3" = true := by
  refine ⟨?_, rfl, rfl, rfl, rfl, rfl⟩
  intro s
  simp only [safe_filename]
  by_cases h : (s.data.isEmpty || pyInStr ".." s || pyInStr "/" s || pyInStr "\\" s) = true
  · rw [if_pos h]
    simp only [Bool.or_eq_true, List.isEmpty_eq_true] at h
    constructor
    · intro hfalse
      exact absurd hfalse (by simp)
    · rintro ⟨hdd, hsl, hbs, hm⟩
      have hne : s.data ≠ [] := by
        rcases hm with ⟨h1, -⟩ | ⟨w, hw, hwne, -⟩
        · exact h1
        · rw [hw]
          simp
      rcases h with ((hnil | hd) | hs2) | hb2
      · exact absurd hnil hne
      · rw [hdd] at hd
        exact absurd hd (by simp)
      · rw [hsl] at hs2
        exact absurd hs2 (by simp)
      · rw [hbs] at hb2
        exact absurd hb2 (by simp)
  · rw [if_neg h]
    simp only [Bool.or_eq_true, List.isEmpty_eq_true, not_or, Bool.not_eq_true] at h
    obtain ⟨⟨⟨-, hdd⟩, hsl⟩, hbs⟩ := h
    rw [classFullMatch_iff]
    constructor
    · intro hm
      exact ⟨hdd, hsl, hbs, hm⟩
    · rintro ⟨-, -, -, hm⟩
      exact hm

theorem loadField_jobj (kvs : List (String × JVal)) (k : String) (d : Int)
    (h : coercibleOrAbsent kvs k) :
    loadField (.jobj kvs) k d = .ok (coerceVal kvs k d) := by
  rcases h with hnone | ⟨v, n, hv, hn⟩
  · simp [loadField, pyMem, hnone, coerceVal, bind, Except.bind, pure, Except.pure]
  · simp [loadField, pyMem, hv, getItem, hn, coerceVal, bind, Except.bind, pure, Except.pure]

/-- C7 counterexample: a perfectly readable config.json holding the valid
JSON object {"repeats": "abc"} makes `load_config` raise an uncaught
ValueError (from `int("abc")`), since the `except` clause catches only
JSONDecodeError and OSError. This refutes "for arbitrary content the load
returns a defined record and never raises". -/
theorem load_config_raises_counterexample :
    load_config (.content (.jobj [("repeats", .jstr "abc")])) = .error .valueError ∧
    ¬ ∃ c : Config, load_config (.content (.jobj [("repeats", .jstr "abc")])) = .ok c := by
  have h1 : load_config (.content (.jobj [("repeats", .jstr "abc")])) = .error .valueError := rfl
  refine ⟨h1, ?_⟩
  rintro ⟨c, hc⟩
  rw [h1] at hc
  cases hc

/-- C7 (amended): the player's `load_config` returns the default record
when config.json is missing, unreadable, or not valid JSON. For a valid
JSON object it returns a defined record (defaults for absent fields,
the `int(...)`-coerced value for present ones) provided each present
repeats / delay / volume field is `int(...)`-coercible — an integer, a
boolean, or a numeric string. Otherwise the load raises: a
non-coercible field (see the counterexample), or a valid-JSON top level
that is null, a boolean or a number, which fails the membership test
with a TypeError. -/
theorem load_config_defaults_and_fields :
    load_config .missing = .ok ⟨DEFAULT_REPEATS, DEFAULT_DELAY, DEFAULT_VOLUME⟩ ∧
    load_config .unreadable = .ok ⟨DEFAULT_REPEATS, DEFAULT_DELAY, DEFAULT_VOLUME⟩ ∧
    load_config .invalidJson = .ok ⟨DEFAULT_REPEATS, DEFAULT_DELAY, DEFAULT_VOLUME⟩ ∧
    load_config (.content .jnull) = .error .typeError ∧
    (∀ b : Bool, load_config (.content (.jbool b)) = .error .typeError) ∧
    (∀ n : Int, load_config (.content (.jnum n)) = .error .typeError) ∧
    ∀ kvs : List (String × JVal),
      coercibleOrAbsent kvs "repeats" → coercibleOrAbsent kvs "delay" →
      coercibleOrAbsent kvs "volume" →
      load_config (.content (.jobj kvs)) =
        .ok ⟨coerceVal kvs "repeats" DEFAULT_REPEATS, coerceVal kvs "delay" DEFAULT_DELAY,
             coerceVal kvs "volume" DEFAULT_VOLUME⟩ := by
  refine ⟨rfl, rfl, rfl, rfl, fun b => rfl, fun n => rfl, ?_⟩
  intro kvs h1 h2 h3
  simp [load_config, loadField_jobj kvs "repeats" DEFAULT_REPEATS h1,
    loadField_jobj kvs "delay" DEFAULT_DELAY h2,
    loadField_jobj kvs "volume" DEFAULT_VOLUME h3, bind, Except.bind, pure, Except.pure]

/-- Witness for C7 (amended): a config.json holding
{"repeats": "42", "delay": true} loads without raising to repeats 42
(int("42")), delay 1 (int(True)), volume 32768 (default). -/
theorem load_config_defaults_and_fields_witness :
    load_config (.content (.jobj [("repeats", .jstr "42"), ("delay", .jbool true)])) =
      .ok ⟨42, 1, 32768⟩ :=
  load_config_defaults_and_fields.2.2.2.2.2.2
    [("repeats", .jstr "42"), ("delay", .jbool true)]
    (Or.inr ⟨.jstr "42", 42, rfl, rfl⟩) (Or.inr ⟨.jbool true, 1, rfl, rfl⟩) (Or.inl rfl)

theorem checkFiles_all_ok (ex : String → Bool) (files : List String)
    (hex : ∀ f ∈ files, ex (joinPath AUDIO_DIR f) = true) :
    checkFiles ex files = .ok (files.map (joinPath AUDIO_DIR)) := by
  induction files with
  | nil => rfl
  | cons a t ih =>
      have ha : ex (joinPath AUDIO_DIR a) = true := hex a (List.mem_cons_self a t)
      have ht := ih (fun f hf => hex f (List.mem_cons_of_mem a hf))
      simp only [checkFiles, if_pos ha, ht, List.map_cons, bind, Except.bind]
      rfl

theorem checkFiles_missing (ex : String → Bool) (files : List String)
    (h : ∃ f ∈ files, ex (joinPath AUDIO_DIR f) = false) :
    ∃ g, checkFiles ex files = .error g := by
  induction files with
  | nil =>
      obtain ⟨f, hf, -⟩ := h
      cases hf
  | cons a t ih =>
      by_cases ha : ex (joinPath AUDIO_DIR a) = true
      · obtain ⟨f, hf, hfe⟩ := h
        have hft : f ∈ t := by
          rcases List.mem_cons.mp hf with rfl | hft
          · rw [ha] at hfe
            cases hfe
          · exact hft
        obtain ⟨g, hg⟩ := ih ⟨f, hft, hfe⟩
        refine ⟨g, ?_⟩
        simp only [checkFiles, if_pos ha, hg, bind, Except.bind]
      · refine ⟨a, ?_⟩
        simp only [checkFiles, if_neg ha]

/-- C1: for an announce request whose filenames all exist, with config
delay `d` and current time `now`: if `now - LAST_PLAYED < d` the handler
answers 200 `"OK\n"` with no decoder launch and `LAST_PLAYED` unchanged;
otherwise it answers 200 `"OK\n"`, launches exactly one decoder
invocation and sets `LAST_PLAYED := now`; and for `d ≥ 0` the cell is
monotonically non-decreasing either way. -/
theorem announce_throttle (ex : String → Bool) (cfg : Config) (files : List String)
    (now : ℚ) (st : PlayerState)
    (hne : files ≠ [])
    (hex : ∀ f ∈ files, ex (joinPath AUDIO_DIR f) = true) :
    ((now - st.lastPlayed < (cfg.delay : ℚ)) →
        announce ex cfg files now st = ⟨.ok200 "OK\n", st, []⟩) ∧
    (¬ (now - st.lastPlayed < (cfg.delay : ℚ)) →
        (announce ex cfg files now st).resp = .ok200 "OK\n" ∧
        (announce ex cfg files now st).launches.length = 1 ∧
        (announce ex cfg files now st).state = ⟨now⟩) ∧
    ((0 : ℚ) ≤ (cfg.delay : ℚ) →
        st.lastPlayed ≤ (announce ex cfg files now st).state.lastPlayed) := by
  have hisEmpty : files.isEmpty = false := List.isEmpty_eq_false.mpr hne
  have hck := checkFiles_all_ok ex files hex
  by_cases hth : now - st.lastPlayed < (cfg.delay : ℚ)
  · have h1 : announce ex cfg files now st = ⟨.ok200 "OK\n", st, []⟩ := by
      simp only [announce, hisEmpty, Bool.false_eq_true, if_false, hck, play_audio, if_pos hth, if_true]
    refine ⟨fun _ => h1, fun hc => absurd hth hc, fun _ => ?_⟩
    rw [h1]
  · have h1 : announce ex cfg files now st =
        ⟨.ok200 "OK\n", ⟨now⟩,
          [⟨["mpg123", "-f", toString cfg.volume, "-q"] ++
              pyListMul (files.map (joinPath AUDIO_DIR)) cfg.repeats⟩]⟩ := by
      simp only [announce, hisEmpty, Bool.false_eq_true, if_false, hck, play_audio, if_neg hth, if_true]
    refine ⟨fun hc => absurd hc hth, fun _ => ?_, fun hd => ?_⟩
    · rw [h1]
      exact ⟨rfl, rfl, rfl⟩
    · rw [h1]
      have hge : (cfg.delay : ℚ) ≤ now - st.lastPlayed := not_lt.mp hth
      have : st.lastPlayed ≤ now := by linarith
      exact this

/-- Witness for C1 at a throttled concrete input: delay 10, last play at
time 0, request at time 5 with an existing file answers 200 with no
launch and an unchanged cell. -/
theorem announce_throttle_witness :
    announce (fun _ => true) ⟨2, 10, 32768⟩ ["bell.mp3"] 5 ⟨0⟩ = ⟨.ok200 "OK\n", ⟨0⟩, []⟩ :=
  (announce_throttle (fun _ => true) ⟨2, 10, 32768⟩ ["bell.mp3"] 5 ⟨0⟩
    (by simp) (fun _ _ => rfl)).1 (by norm_num)

/-- C3 (amended): an announce request containing a filename whose joined
path `os.path.join(AUDIO_DIR, name)` does not exist is rejected whole
with HTTP 400 before any playback: no decoder launch and `LAST_PLAYED`
unchanged. Existence of the joined path is the handler's only check —
the filename validator is never called on this route, so traversal or
absolute names resolving outside the audio directory are played rather
than rejected (see the counterexample). -/
theorem announce_unknown_file (ex : String → Bool) (cfg : Config) (files : List String)
    (now : ℚ) (st : PlayerState)
    (h : ∃ f ∈ files, ex (joinPath AUDIO_DIR f) = false) :
    ∃ g, announce ex cfg files now st = ⟨.err 400 ("Unknown file: " ++ g), st, []⟩ := by
  have hne : files ≠ [] := by
    rintro rfl
    obtain ⟨f, hf, -⟩ := h
    cases hf
  have hisEmpty : files.isEmpty = false := List.isEmpty_eq_false.mpr hne
  obtain ⟨g, hg⟩ := checkFiles_missing ex files h
  exact ⟨g, by simp only [announce, hisEmpty, Bool.false_eq_true, if_false, hg]⟩

/-- Witness for C3: announce with file "missing.mp3" absent from the
audio directory answers 400 with no launch, state unchanged. -/
theorem announce_unknown_file_witness :
    ∃ g, announce (fun _ => false) ⟨2, 10, 32768⟩ ["missing.mp3"] 0 ⟨0⟩ =
      ⟨.err 400 ("Unknown file: " ++ g), ⟨0⟩, []⟩ :=
  announce_unknown_file (fun _ => false) ⟨2, 10, 32768⟩ ["missing.mp3"] 0 ⟨0⟩
    ⟨"missing.mp3", by simp, rfl⟩

theorem announce_launch_eq (ex : String → Bool) (cfg : Config) (files : List String)
    (now : ℚ) (st : PlayerState)
    (hisEmpty : files.isEmpty = false)
    (paths : List String)
    (hck : checkFiles ex files = .ok paths)
    (hth : ¬ (now - st.lastPlayed < (cfg.delay : ℚ))) :
    announce ex cfg files now st =
      ⟨.ok200 "OK\n", ⟨now⟩,
        [⟨["mpg123", "-f", toString cfg.volume, "-q"] ++ pyListMul paths cfg.repeats⟩]⟩ := by
  simp only [announce, hisEmpty, Bool.false_eq_true, if_false, hck, play_audio,
    if_neg hth, if_true]

/-- C3 counterexample: the announce route never calls the filename
validator; its only check is `os.path.exists` on the joined path. Model
the filesystem as the normalized paths of the files that exist: the
audio directory is empty and a file "../etc/passwd" (relative to the
working directory) exists. The traversal request file=../../etc/passwd
then names a file that does NOT resolve to an existing file in the
audio directory, yet the handler (config delay 0) answers 200 "OK\n"
and launches the decoder on it instead of rejecting with 400. -/
theorem announce_traversal_counterexample :
    resolvesInAudioDir ["../etc/passwd"] "../../etc/passwd" = false ∧
    announce (fun p => (["../etc/passwd"] : List String).contains (normPath p))
        ⟨2, 0, 32768⟩ ["../../etc/passwd"] 10 ⟨0⟩ =
      ⟨.ok200 "OK\n", ⟨10⟩,
        [⟨["mpg123", "-f", "32768", "-q", "audio/../../etc/passwd",
           "audio/../../etc/passwd"]⟩]⟩ := by
  refine ⟨rfl, ?_⟩
  have h := announce_launch_eq
    (fun p => (["../etc/passwd"] : List String).contains (normPath p))
    ⟨2, 0, 32768⟩ ["../../etc/passwd"] 10 ⟨0⟩ rfl
    ["audio/../../etc/passwd"] rfl (by norm_num)
  rw [h]
  rfl

theorem pyListMul_eq_repeatConcat (xs : List String) (n : Nat) :
    pyListMul xs (n : Int) = repeatConcat xs n := by
  have haux : ∀ m : Nat, (List.replicate m xs).flatten = repeatConcat xs m := by
    intro m
    induction m with
    | zero => rfl
    | succ k ih => simp only [List.replicate_succ, List.flatten_cons, ih, repeatConcat]
  simp only [pyListMul, Int.toNat_ofNat, haux]

/-- C4: a non-throttled launch hands the decoder exactly one invocation
whose play list is the requested files repeated `r` times in sequence
(order and duplicates preserved), together with the configured volume. -/
theorem play_audio_playlist (fs : List String) (r : Nat) (delay volume : Int)
    (now : ℚ) (st : PlayerState)
    (h : ¬ (now - st.lastPlayed < (delay : ℚ))) :
    (play_audio fs (r : Int) delay volume now st).launches =
      [⟨["mpg123", "-f", toString volume, "-q"] ++ repeatConcat fs r⟩] ∧
    (play_audio fs (r : Int) delay volume now st).launches.length = 1 := by
  constructor
  · simp only [play_audio, if_neg h, pyListMul_eq_repeatConcat]
  · simp only [play_audio, if_neg h, List.length_cons, List.length_nil]

/-- Witness for C4 at the specification's example: files [A, B] with
repeats 3 launch once with play list [A, B, A, B, A, B] and volume 1000. -/
theorem play_audio_playlist_witness :
    (play_audio ["A", "B"] 3 10 1000 20 ⟨0⟩).launches =
      [⟨["mpg123", "-f", toString (1000 : Int), "-q", "A", "B", "A", "B", "A", "B"]⟩] :=
  (play_audio_playlist ["A", "B"] 3 10 1000 20 ⟨0⟩ (by norm_num)).1

end Player

namespace KeyListener

/-- C2 counterexample: the debounce state starts at `last = 0.0`, so a
first key-down event at monotonic time 0.5 (a valid monotonic timestamp)
satisfies `0.5 - 0 < 1` and is dropped — the first event is NOT always
forwarded, refuting "initialized so that the first event is always
forwarded". -/
theorem mainDebounce_first_event_counterexample :
    mainDebounce [(1 : ℚ)/2] = [false] := by
  simp only [mainDebounce, runDebounce]
  rw [if_pos (by norm_num [DEBOUNCE])]

/-- C2 (amended): the key-listener loop forwards an event at monotonic
time T iff `T - lastTriggerTime ≥ window` (window 1.0s), setting
`lastTriggerTime := T` on forward and dropping the event silently
otherwise; the state is initialized to 0, so the FIRST event is
forwarded iff its timestamp is at least the window (not always). -/
theorem mainDebounce_characterization :
    (∀ (last : ℚ) (ts : List ℚ), runDebounce last ts = specDebounce last ts) ∧
    (∀ (t : ℚ) (ts : List ℚ),
        (mainDebounce (t :: ts)).head? = some (decide (DEBOUNCE ≤ t))) := by
  constructor
  · intro last ts
    induction ts generalizing last with
    | nil => rfl
    | cons t ts ih =>
        simp only [runDebounce, specDebounce, ge_iff_le]
        by_cases h : t - last < DEBOUNCE
        · rw [if_pos h, if_neg (not_le.mpr h), ih]
        · rw [if_neg h, if_pos (not_lt.mp h), ih]
  · intro t ts
    simp only [mainDebounce, runDebounce]
    by_cases ht : t - 0 < DEBOUNCE
    · rw [if_pos ht, List.head?_cons]
      have hnle : ¬ DEBOUNCE ≤ t := by
        rw [sub_zero] at ht
        exact not_le.mpr ht
      simp [hnle]
    · rw [if_neg ht, List.head?_cons]
      have hle : DEBOUNCE ≤ t := by
        rw [sub_zero] at ht
        exact not_lt.mp ht
      simp [hle]

end KeyListener

namespace Sender

theorem filter_contains_all (l avail : List String) :
    (l.filter (fun f => avail.contains f)).all (fun f => avail.contains f) = true := by
  rw [List.all_eq_true]
  intro f hf
  exact (List.mem_filter.mp hf).2

/-- C6: evaluation of the discovery listener at the failing input. With
two advertisements resolving to (10.0.0.1, 8000) then (10.0.0.2, 9000)
in the same attempt, `add_service` overwrites the already-recorded
candidate unconditionally, so `find_server` returns the LAST responder's
URL, not the first responder's as the claim (and the Listener docstring,
"stores the first discovered player URL") state. -/
theorem find_server_last_responder_wins :
    find_server [some ("10.0.0.1", 8000), some ("10.0.0.2", 9000)] =
      some "http://10.0.0.2:9000" ∧
    find_server [some ("10.0.0.1", 8000), some ("10.0.0.2", 9000)] ≠
      some "http://10.0.0.1:8000" := by
  refine ⟨rfl, ?_⟩
  decide

/-- C8: a /send request with an empty or missing configured server
address (after normalization) or an empty file-to-send list (after
dropping blank entries) answers a 400 client error and performs no
network call to the player. -/
theorem send_unconfigured (net : String → NetResult) (cfg : SConfig)
    (h : (rstripSlashes (stripWS (cfg.server.getD ""))).data.isEmpty = true ∨
         (cfg.audio_files_to_send.filter (fun f => !f.data.isEmpty)).isEmpty = true) :
    (∃ e, (send net cfg).resp = .clientErr e) ∧ (send net cfg).calls = [] := by
  rcases h with h | h
  · exact ⟨⟨"No player configured", by simp [send, h]⟩, by simp [send, h]⟩
  · by_cases hs : (rstripSlashes (stripWS (cfg.server.getD ""))).data.isEmpty = true
    · exact ⟨⟨"No player configured", by simp [send, hs]⟩, by simp [send, hs]⟩
    · have hs2 : (rstripSlashes (stripWS (cfg.server.getD ""))).data.isEmpty = false :=
        Bool.eq_false_iff.mpr hs
      exact ⟨⟨"No audio files to send", by simp [send, hs2, h]⟩, by simp [send, hs2, h]⟩

/-- Witness for C8: no server configured (with a non-empty file list)
answers a client error with no outbound call. -/
theorem send_unconfigured_witness :
    (∃ e, (send (fun _ => .status 200) ⟨none, [], ["bell.mp3"]⟩).resp =
        SendResp.clientErr e) ∧
    (send (fun _ => .status 200) ⟨none, [], ["bell.mp3"]⟩).calls = [] :=
  send_unconfigured (fun _ => .status 200) ⟨none, [], ["bell.mp3"]⟩ (Or.inl rfl)

/-- C5 counterexample: startup reconciliation on a config whose
`audio_files_to_send` is the non-empty ["old.mp3"] persists the freshly
fetched inventory ["new.mp3"] without filtering the send list, so the
persisted record violates `audio_files_to_send ⊆ available_audio_files`. -/
theorem startup_invariant_counterexample :
    (run_startup none (fun _ => some ["new.mp3"])
        ⟨some "http://p", ["old.mp3"], ["old.mp3"]⟩).saves =
      [⟨some "http://p", ["new.mp3"], ["old.mp3"]⟩] ∧
    invariantB ⟨some "http://p", ["new.mp3"], ["old.mp3"]⟩ = false := by
  exact ⟨rfl, rfl⟩

theorem api_patch_invariant (fetch : String → Option (List String)) (cfg : SConfig)
    (data : PatchData) :
    ∀ c ∈ (api_patch_config fetch cfg data).saves, invariantB c = true := by
  intro c hc
  cases data with
  | noKeys => cases hc
  | setFiles v =>
      simp only [api_patch_config, List.mem_singleton] at hc
      subst hc
      exact filter_contains_all (v.getD []) cfg.available_audio_files
  | setServer v =>
      simp only [api_patch_config] at hc
      split at hc
      · simp only [List.mem_singleton] at hc
        subst hc
        simp [invariantB]
      · split at hc
        · cases hc
        · cases hc
        · simp only [List.mem_singleton] at hc
          subst hc
          simp only [invariantB]
          split
          · simp
          · exact filter_contains_all _ _

theorem startupAfterFetch_invariant (cfg : SConfig) (files : List String)
    (h : cfg.audio_files_to_send = []) :
    ∀ c ∈ (startupAfterFetch cfg files).2, invariantB c = true := by
  intro c hc
  cases files with
  | nil =>
      simp only [startupAfterFetch, List.mem_singleton] at hc
      subst hc
      simp [invariantB, h]
  | cons f rest =>
      have hempty : cfg.audio_files_to_send.isEmpty = true := by
        rw [h]
        rfl
      simp only [startupAfterFetch, hempty, if_true, List.mem_cons,
        List.mem_singleton, List.not_mem_nil, or_false] at hc
      rcases hc with rfl | rfl
      · simp [invariantB, h]
      · simp [invariantB]

theorem run_startup_saves_invariant (discover : Option String)
    (fetch : String → Option (List String)) (cfg : SConfig)
    (h : cfg.audio_files_to_send = []) :
    ∀ c ∈ (run_startup discover fetch cfg).saves, invariantB c = true := by
  intro c hc
  by_cases hsrv : truthyS cfg.server = true
  · cases hfetch : fetch (cfg.server.getD "") with
    | some files =>
        simp only [run_startup, hsrv, if_true, hfetch, List.nil_append] at hc
        exact startupAfterFetch_invariant cfg files h c hc
    | none =>
        cases discover with
        | none =>
            simp only [run_startup, hsrv, if_true, hfetch, Bool.false_eq_true, if_false] at hc
            exact absurd hc (List.not_mem_nil c)
        | some s =>
            cases hf2 : fetch s with
            | some files2 =>
                simp only [run_startup, hsrv, if_true, hfetch, Bool.false_eq_true, if_false,
                  hf2, List.nil_append, List.singleton_append, List.mem_cons] at hc
                rcases hc with rfl | hc
                · simp [invariantB, h]
                · exact startupAfterFetch_invariant { cfg with server := some s } files2 h c hc
            | none =>
                simp only [run_startup, hsrv, if_true, hfetch, Bool.false_eq_true, if_false,
                  hf2, List.nil_append, List.mem_singleton] at hc
                subst hc
                simp [invariantB, h]
  · have hsrv2 : truthyS cfg.server = false := Bool.eq_false_iff.mpr hsrv
    cases discover with
    | none =>
        simp only [run_startup, hsrv2, Bool.false_eq_true, if_false] at hc
        cases hc
    | some s =>
        by_cases hs2 : truthyS (some s) = true
        · cases hfetch : fetch ((some s).getD "") with
          | some files =>
              simp only [run_startup, hsrv2, Bool.false_eq_true, if_false, hs2, if_true,
                hfetch, List.singleton_append, List.mem_cons] at hc
              rcases hc with rfl | hc
              · simp [invariantB, h]
              · exact startupAfterFetch_invariant { cfg with server := some s } files h c hc
          | none =>
              simp only [run_startup, hsrv2, Bool.false_eq_true, if_false, hs2, if_true,
                hfetch, List.mem_singleton] at hc
              subst hc
              simp [invariantB, h]
        · have hs3 : truthyS (some s) = false := Bool.eq_false_iff.mpr hs2
          simp only [run_startup, hsrv2, hs3, Bool.false_eq_true, if_false,
            List.mem_singleton] at hc
          subst hc
          simp [invariantB, h]

/-- C5 (amended): every record persisted by a config PATCH satisfies
`audio_files_to_send ⊆ available_audio_files`, and startup
reconciliation preserves the invariant when `audio_files_to_send` is
empty beforehand; when it is non-empty, startup leaves it unfiltered
against the freshly fetched inventory and can persist a violating record
(see the counterexample). -/
theorem config_mutation_invariant :
    (∀ (fetch : String → Option (List String)) (cfg : SConfig) (data : PatchData),
        ∀ c ∈ (api_patch_config fetch cfg data).saves, invariantB c = true) ∧
    (∀ (discover : Option String) (fetch : String → Option (List String)) (cfg : SConfig),
        cfg.audio_files_to_send = [] →
        ∀ c ∈ (run_startup discover fetch cfg).saves, invariantB c = true) :=
  ⟨fun fetch cfg data => api_patch_invariant fetch cfg data,
   fun discover fetch cfg h => run_startup_saves_invariant discover fetch cfg h⟩

/-- Witness for C5 (amended): concrete instances of both conjuncts — a
startup run that populates an empty send list from the fetched
inventory, and a PATCH that blanks the server. -/
theorem config_mutation_invariant_witness :
    invariantB ⟨some "http://p", ["a.mp3"], ["a.mp3"]⟩ = true ∧
    invariantB ⟨none, [], []⟩ = true :=
  ⟨config_mutation_invariant.2 (some "http://p") (fun _ => some ["a.mp3"]) ⟨none, [], []⟩ rfl
      ⟨some "http://p", ["a.mp3"], ["a.mp3"]⟩ (by decide),
   config_mutation_invariant.1 (fun _ => none) ⟨none, [], []⟩ (.setServer none)
      ⟨none, [], []⟩ (by decide)⟩

theorem startupAfterFetch_self (cfg : SConfig) (hts : cfg.audio_files_to_send ≠ []) :
    (startupAfterFetch cfg cfg.available_audio_files).1 = cfg := by
  cases havail : cfg.available_audio_files with
  | nil =>
      simp only [startupAfterFetch]
      rw [← havail]
  | cons f rest =>
      have hempty : cfg.audio_files_to_send.isEmpty = false := List.isEmpty_eq_false.mpr hts
      simp only [startupAfterFetch, hempty, Bool.false_eq_true, if_false]
      rw [← havail]

/-- C10: startup reconciliation is idempotent on an already-reconciled
config: with a configured (truthy) server address, a non-empty
`audio_files_to_send`, and the remote fetch returning exactly the stored
inventory, the run leaves the config record's content unchanged. -/
theorem run_startup_idempotent (discover : Option String)
    (fetch : String → Option (List String)) (cfg : SConfig)
    (hsrv : truthyS cfg.server = true)
    (hts : cfg.audio_files_to_send ≠ [])
    (hfetch : fetch (cfg.server.getD "") = some cfg.available_audio_files) :
    (run_startup discover fetch cfg).config = cfg := by
  simp only [run_startup, hsrv, if_true, hfetch]
  exact startupAfterFetch_self cfg hts

/-- Witness for C10: a populated, reachable config is left unchanged by
a reconciliation run. -/
theorem run_startup_idempotent_witness :
    (run_startup none (fun _ => some ["bell.mp3"])
        ⟨some "http://p", ["bell.mp3"], ["bell.mp3"]⟩).config =
      ⟨some "http://p", ["bell.mp3"], ["bell.mp3"]⟩ :=
  run_startup_idempotent none (fun _ => some ["bell.mp3"])
    ⟨some "http://p", ["bell.mp3"], ["bell.mp3"]⟩ rfl (by simp) rfl

end Sender

end MilkButton
